import Mathlib

/-!
Verification of the anemia-evaluation inference engine (`anemia_app.py`).

The engine is embedded shallowly: Python optional floats become `Option ℚ`
(exact rationals stand in for IEEE floats; every comparison the engine makes
is against small decimal constants, where the two agree), selection widgets
become `Option String` holding the selected label, and the rule pipeline
becomes pure list-building functions.  Python's stable `sorted` is modelled
by `List.mergeSort`, which is stable for the same comparator discipline.
-/

set_option maxHeartbeats 1000000

namespace Anemia

/-! ## Character and string helpers (ASCII models of the Python str methods) -/

/-- ASCII whitespace, as stripped by Python `str.strip()` on the app's inputs. -/
def isSpaceChar (c : Char) : Bool :=
  c = ' ' ∨ c = '\t' ∨ c = '\n' ∨ c = '\r' ∨ c = '\x0b' ∨ c = '\x0c'

/-- Python `str.strip()` on a character list. -/
def pyStrip (l : List Char) : List Char :=
  ((l.dropWhile isSpaceChar).reverse.dropWhile isSpaceChar).reverse

/-- ASCII lower-casing of one character (model of Python `str.lower`). -/
def lowerChar (c : Char) : Char :=
  if 'A' ≤ c ∧ c ≤ 'Z' then Char.ofNat (c.toNat + 32) else c

/-- ASCII upper-casing of one character (model of Python `str.upper`). -/
def upperChar (c : Char) : Char :=
  if 'a' ≤ c ∧ c ≤ 'z' then Char.ofNat (c.toNat - 32) else c

/-- Lower-case a whole character list. -/
def lowerL (l : List Char) : List Char := l.map lowerChar

/-- `startsWithL pre s` holds when `pre` is an initial segment of `s`
(model of Python `str.startswith`). -/
def startsWithL : List Char → List Char → Bool
  | [], _ => true
  | _ :: _, [] => false
  | p :: ps, c :: cs => p = c && startsWithL ps cs

/-- Everything after the first occurrence of `c` (model of `s.split(c, 1)[1]`). -/
def afterChar (c : Char) : List Char → List Char
  | [] => []
  | x :: xs => if x = c then xs else afterChar c xs

/-- `titlecase_first` (source lines 50–54): strip, then upper-case the first
character if the result is nonempty. -/
def titlecaseL (l : List Char) : List Char :=
  match pyStrip l with
  | [] => []
  | c :: cs => upperChar c :: cs

/-- `titlecase_first` on `String`. -/
def titlecase_first (s : String) : String := String.mk (titlecaseL s.data)

/-! ## `to_float` (source lines 23–31)

Python's `float` builtin is modelled on its core decimal grammar: optional
sign, digits with an optional fraction part, and an optional exponent.
(`float` additionally accepts underscores in digit runs and `inf`/`nan`;
the app never feeds it those, and the claims do not depend on them.) -/

/-- Accumulator form of reading a decimal digit run. -/
def digitsValAux (a : ℕ) : List Char → ℕ
  | [] => a
  | c :: cs => digitsValAux (10 * a + (c.toNat - 48)) cs

/-- Value of a decimal digit run. -/
def digitsVal (l : List Char) : ℕ := digitsValAux 0 l

/-- Parse the mantissa `digits [ . digits ]` (at least one digit overall);
return its value and the unconsumed rest. -/
def parseMantissa (l : List Char) : Option (ℚ × List Char) :=
  match l.dropWhile Char.isDigit with
  | '.' :: r2 =>
      if l.takeWhile Char.isDigit = [] ∧ r2.takeWhile Char.isDigit = [] then none
      else some ((digitsVal (l.takeWhile Char.isDigit) : ℚ) +
        (digitsVal (r2.takeWhile Char.isDigit) : ℚ) /
          (10 : ℚ) ^ (r2.takeWhile Char.isDigit).length,
        r2.dropWhile Char.isDigit)
  | _ =>
      if l.takeWhile Char.isDigit = [] then none
      else some ((digitsVal (l.takeWhile Char.isDigit) : ℚ), l.dropWhile Char.isDigit)

/-- Strip an optional exponent sign, returning the sign and the rest. -/
def expSign (l : List Char) : Int × List Char :=
  match l with
  | '+' :: r => (1, r)
  | '-' :: r => (-1, r)
  | r => (1, r)

/-- Parse the optional exponent after the mantissa; the whole rest must be
consumed for the literal to be valid. -/
def parseAfterMantissa (m : ℚ) : List Char → Option ℚ
  | [] => some m
  | c :: r =>
      if c = 'e' ∨ c = 'E' then
        if (expSign r).2.takeWhile Char.isDigit = [] ∨
            (expSign r).2.dropWhile Char.isDigit ≠ [] then none
        else some (m * (10 : ℚ) ^
          ((expSign r).1 * (digitsVal ((expSign r).2.takeWhile Char.isDigit) : Int)))
      else none

/-- Strip an optional leading sign, returning the sign factor and the rest. -/
def splitSign (l : List Char) : ℚ × List Char :=
  match l with
  | '+' :: r => (1, r)
  | '-' :: r => (-1, r)
  | r => (1, r)

/-- Model of Python `float(text)` on an already-stripped character list. -/
def pyFloat (l : List Char) : Option ℚ :=
  match parseMantissa (splitSign l).2 with
  | none => none
  | some (m, rest) =>
      match parseAfterMantissa m rest with
      | none => none
      | some v => some ((splitSign l).1 * v)

/-- `to_float` (source lines 23–31): blank → `none`, invalid → `none`;
never returns 0 unless the user typed 0. -/
def to_float (x : String) : Option ℚ :=
  if pyStrip x.data = [] then none else pyFloat (pyStrip x.data)

/-! ## `fmt` (source lines 34–40), needed by the "already entered" labels.

Fixed-point decimal rendering of a rational (Python renders a float with
`f"{x:.Nf}"`; on the engine's inputs both produce a plain decimal numeral). -/

/-- Left-pad a numeral string with zeros to length `d`. -/
def padZeros (s : String) (d : ℕ) : String :=
  String.mk (List.replicate (d - s.length) '0') ++ s

/-- Render `x` with `d` digits after the decimal point. -/
def renderFixed (x : ℚ) (d : ℕ) : String :=
  let scaled : Int := Int.floor (x * (10 : ℚ) ^ d + 1 / 2)
  let sign := if scaled < 0 then "-" else ""
  let n := scaled.natAbs
  if d = 0 then sign ++ toString n
  else sign ++ toString (n / 10 ^ d) ++ "." ++ padZeros (toString (n % 10 ^ d)) d

/-- `fmt` (source lines 34–40): `None` renders as an em-dash. -/
def fmt (x : Option ℚ) (digits : ℕ) (suffix : String) : String :=
  match x with
  | none => "—"
  | some v => renderFixed v digits ++ suffix

/-! ## Option-valued numeric comparisons

Python writes `x is not None and x < c`; these helpers are that exact guard. -/

/-- `x is not None and x < c`. -/
def oLt (x : Option ℚ) (c : ℚ) : Bool :=
  match x with
  | some v => v < c
  | none => false

/-- `x is not None and x >= c`. -/
def oGe (x : Option ℚ) (c : ℚ) : Bool :=
  match x with
  | some v => c ≤ v
  | none => false

/-- `x is not None and x > c`. -/
def oGt (x : Option ℚ) (c : ℚ) : Bool :=
  match x with
  | some v => c < v
  | none => false

/-- `x is None or x >= c`. -/
def oNoneOrGe (x : Option ℚ) (c : ℚ) : Bool :=
  match x with
  | some v => c ≤ v
  | none => true

/-! ## Retic / RPI calculator (source lines 57–73, 606–613, 643–650) -/

/-- `maturation_factor` (source lines 57–73). -/
def maturation_factor (hct : Option ℚ) : Option ℚ :=
  match hct with
  | none => none
  | some h =>
      if 40 ≤ h then some 1
      else if 30 ≤ h ∧ h < 40 then some (3 / 2)
      else if 20 ≤ h ∧ h < 30 then some 2
      else some (5 / 2)

/-- `marrow_response` (source lines 643–650): the RPI, when computed, takes
precedence over the qualitative reticulocyte answer. -/
def marrow_response (rpi : Option ℚ) (retic_qual : Option String) : String :=
  match rpi with
  | some r => if 2 ≤ r then "Appropriate (RPI ≥2)" else "Inadequate (RPI <2)"
  | none =>
      match retic_qual with
      | some q =>
          if q = "High" then "Appropriate/High retic"
          else if q = "Low" then "Inadequate/Low retic"
          else "Unknown"
      | none => "Unknown"

/-! ## The evaluation input record

One immutable snapshot of every engine-relevant UI value (widget fields the
engine never reads — RDW, active bleeding, CVD, rapid onset, retic input mode
— are omitted; the retic mode only decides which of `retic_qual`/`retic_pct`
gets populated). -/

structure Inputs where
  hb : Option ℚ := none
  hct : Option ℚ := none
  mcv_cat : Option String := none
  symptomatic_any : Option String := none
  high_risk_symptoms : Option String := none
  other_cytopenias : Option String := none
  smear_abnormal : Option String := none
  retic_qual : Option String := none
  retic_pct : Option ℚ := none
  expected_hct_input : Option ℚ := none
  ferritin : Option ℚ := none
  tsat : Option ℚ := none
  b12 : Option ℚ := none
  folate : Option ℚ := none
  ldh : Option String := none
  haptoglobin : Option String := none
  indirect_bili : Option String := none
  tsh : Option ℚ := none
  egfr : Option ℚ := none
  exposures : List String := []
deriving DecidableEq

/-- `expected_hct` (source line 607): the entered value, defaulting to 40. -/
def expected_hct (i : Inputs) : ℚ := i.expected_hct_input.getD 40

/-- `corrected_retic` (source lines 610–611): computed only when retic %,
hematocrit are entered and the expected hematocrit is nonzero (Python's
`expected_hct and expected_hct != 0` truthiness guard is exactly `≠ 0`). -/
def corrected_retic (i : Inputs) : Option ℚ :=
  match i.retic_pct, i.hct with
  | some rp, some h =>
      if expected_hct i ≠ 0 then some (rp * (h / expected_hct i)) else none
  | _, _ => none

/-- `rpi` (source lines 612–613): computed inside the corrected-retic branch,
only when the maturation factor is present and nonzero. -/
def rpi (i : Inputs) : Option ℚ :=
  match corrected_retic i, maturation_factor i.hct with
  | some c, some m => if m ≠ 0 then some (c / m) else none
  | _, _ => none

/-- The marrow-response label of one evaluation (source lines 643–650). -/
def marrowOf (i : Inputs) : String := marrow_response (rpi i) i.retic_qual

/-! ## The `inputs` dict and `build_known` (source lines 113–132, 714–728) -/

/-- The `inputs` dict assembled at source line 714: the entered lab values
plus the computed RPI. -/
structure Entered where
  tsh : Option ℚ := none
  egfr : Option ℚ := none
  ferritin : Option ℚ := none
  tsat : Option ℚ := none
  b12 : Option ℚ := none
  folate : Option ℚ := none
  ldh : Option String := none
  haptoglobin : Option String := none
  indirect_bili : Option String := none
  retic_pct : Option ℚ := none
  retic_qual : Option String := none
  rpi : Option ℚ := none
deriving DecidableEq

/-- Build the `inputs` dict from the snapshot (source lines 714–727). -/
def entered_inputs (i : Inputs) : Entered :=
  { tsh := i.tsh, egfr := i.egfr, ferritin := i.ferritin, tsat := i.tsat
    b12 := i.b12, folate := i.folate, ldh := i.ldh, haptoglobin := i.haptoglobin
    indirect_bili := i.indirect_bili, retic_pct := i.retic_pct
    retic_qual := i.retic_qual, rpi := rpi i }

/-- The `known` dict (source lines 113–132): one flag per concept plus the
four composite flags. -/
structure Known where
  tsh : Bool := false
  egfr : Bool := false
  ferritin : Bool := false
  tsat : Bool := false
  b12 : Bool := false
  folate : Bool := false
  ldh : Bool := false
  haptoglobin : Bool := false
  indirect_bili : Bool := false
  retic_pct : Bool := false
  retic_qual : Bool := false
  rpi : Bool := false
  iron_any : Bool := false
  hemo_any : Bool := false
  retic_any : Bool := false
  vits_any : Bool := false
deriving DecidableEq

/-- `build_known` (source lines 113–132). -/
def build_known (e : Entered) : Known :=
  { tsh := e.tsh.isSome, egfr := e.egfr.isSome, ferritin := e.ferritin.isSome
    tsat := e.tsat.isSome, b12 := e.b12.isSome, folate := e.folate.isSome
    ldh := e.ldh.isSome, haptoglobin := e.haptoglobin.isSome
    indirect_bili := e.indirect_bili.isSome, retic_pct := e.retic_pct.isSome
    retic_qual := e.retic_qual.isSome, rpi := e.rpi.isSome
    iron_any := e.ferritin.isSome || e.tsat.isSome
    hemo_any := e.ldh.isSome || e.haptoglobin.isSome || e.indirect_bili.isSome
    retic_any := e.rpi.isSome || e.retic_pct.isSome || e.retic_qual.isSome
    vits_any := e.b12.isSome || e.folate.isSome }

/-! ## Word-boundary search

`re.search(r"\bword\b", s, re.I)` for a literal `word` (every pattern the
resolver uses is an alternation of literal words): the word occurs in `s`,
case-insensitively, with no word character (letter, digit, underscore)
immediately before or after the occurrence. -/

/-- Python regex word characters `[A-Za-z0-9_]`. -/
def isWordChar (c : Char) : Bool :=
  ('a' ≤ c ∧ c ≤ 'z') ∨ ('A' ≤ c ∧ c ≤ 'Z') ∨ ('0' ≤ c ∧ c ≤ '9') ∨ c = '_'

/-- A word boundary sits before the match: start of text or a non-word char. -/
def boundaryB : Option Char → Bool
  | none => true
  | some c => !(isWordChar c)

/-- A word boundary sits after the match: end of text or a non-word char. -/
def endBoundaryB : List Char → Bool
  | [] => true
  | c :: _ => !(isWordChar c)

/-- `w` matches at the head of `s`, with a word boundary after it. -/
def matchWordAt (w s : List Char) : Bool :=
  startsWithL w s && endBoundaryB (s.drop w.length)

/-- Scan `s` for a boundary-delimited occurrence of `w`; `pre` is the
character just before the current position. -/
def searchFrom (w : List Char) : Option Char → List Char → Bool
  | pre, [] => boundaryB pre && matchWordAt w []
  | pre, c :: cs => (boundaryB pre && matchWordAt w (c :: cs)) || searchFrom w (some c) cs

/-- `re.search(r"\bw\b", s, re.I) is not None` for a literal word `w`. -/
def hasWord (w : String) (s : List Char) : Bool :=
  searchFrom (lowerL w.data) none (lowerL s)

/-- An alternation `\bw1\b|\bw2\b|...` of literal words. -/
def hasAnyWord (ws : List String) (s : List Char) : Bool :=
  ws.any (fun w => hasWord w s)

/-! ## `already_entered_label` (source lines 135–162) -/

/-- `already_entered_label` (source lines 135–162). -/
def already_entered_label (key : String) (inputs : Entered) : String :=
  if key = "tsh" then "Already entered: TSH = " ++ fmt inputs.tsh 2 ""
  else if key = "egfr" then "Already entered: eGFR = " ++ fmt inputs.egfr 0 ""
  else if key = "ferritin" then "Already entered: Ferritin = " ++ fmt inputs.ferritin 0 ""
  else if key = "tsat" then "Already entered: TSAT = " ++ fmt inputs.tsat 0 "%"
  else if key = "b12" then "Already entered: B12 = " ++ fmt inputs.b12 0 ""
  else if key = "folate" then "Already entered: Folate = " ++ fmt inputs.folate 1 ""
  else if key = "ldh" then "Already entered: LDH = " ++ inputs.ldh.getD "None"
  else if key = "haptoglobin" then "Already entered: Haptoglobin = " ++ inputs.haptoglobin.getD "None"
  else if key = "indirect_bili" then
    "Already entered: Indirect bilirubin = " ++ inputs.indirect_bili.getD "None"
  else if key = "retic_any" then
    match inputs.rpi with
    | some _ => "Already entered: RPI = " ++ fmt inputs.rpi 2 ""
    | none =>
        match inputs.retic_pct with
        | some _ => "Already entered: Retic % = " ++ fmt inputs.retic_pct 2 "%"
        | none =>
            match inputs.retic_qual with
            | some q => "Already entered: Retic = " ++ q
            | none => "Already entered: Reticulocyte data available"
  else "Already entered."

/-! ## `expand_and_filter_suggestion` (source lines 168–302) -/

/-- `expand_and_filter_suggestion` (source lines 168–302).  Python's
`if missing:` / `if parts:` truthiness tests become matches on the list. -/
def expand_and_filter_suggestion (line : String) (known : Known) (inputs : Entered)
    (teaching : Bool) : List String :=
  if line.data = [] then []
  else
    let s := pyStrip line.data
    if startsWithL ("action:".data) (lowerL s) then
      let core := if ':' ∈ s then pyStrip (afterChar ':' s) else s
      [String.mk (titlecaseL core)]
    else if hasAnyWord ["iron studies", "TIBC", "TSAT", "ferritin"] s then
      if hasWord "iron studies" s then
        let missing :=
          (if known.ferritin then [] else ["Ferritin"]) ++
          (if known.tsat then [] else ["Transferrin saturation (TSAT)"])
        match missing with
        | [] =>
            if teaching then
              let parts :=
                (if inputs.ferritin.isSome then [already_entered_label "ferritin" inputs] else []) ++
                (if inputs.tsat.isSome then [already_entered_label "tsat" inputs] else [])
              match parts with
              | [] => ["Already entered: Iron studies available"]
              | _ => parts
            else []
        | _ => missing
      else if hasWord "ferritin" s && !(hasWord "TSAT" s || hasWord "transferrin" s) then
        if known.ferritin then
          if teaching then [already_entered_label "ferritin" inputs] else []
        else ["Ferritin"]
      else if (hasWord "TSAT" s || hasWord "transferrin saturation" s) && !(hasWord "ferritin" s) then
        if known.tsat then
          if teaching then [already_entered_label "tsat" inputs] else []
        else ["Transferrin saturation (TSAT)"]
      else [String.mk s]
    else if hasAnyWord ["B12", "vitamin b12", "folate"] s then
      let mentions_b12 := hasWord "B12" s || hasWord "vitamin b12" s
      let mentions_folate := hasWord "folate" s
      if mentions_b12 && mentions_folate then
        let missing :=
          (if known.b12 then [] else ["Vitamin B12"]) ++
          (if known.folate then [] else ["Folate"])
        match missing with
        | [] =>
            if teaching then
              [already_entered_label "b12" inputs, already_entered_label "folate" inputs]
            else []
        | _ => missing
      else if mentions_b12 && !mentions_folate then
        if known.b12 then
          if teaching then [already_entered_label "b12" inputs] else []
        else ["Vitamin B12"]
      else if mentions_folate && !mentions_b12 then
        if known.folate then
          if teaching then [already_entered_label "folate" inputs] else []
        else ["Folate"]
      else [String.mk s]
    else if hasAnyWord ["hemolysis markers", "hemolysis panel", "LDH", "haptoglobin",
        "indirect", "bilirubin"] s then
      if hasWord "hemolysis markers" s || hasWord "hemolysis panel" s then
        let missing :=
          (if known.ldh then [] else ["LDH"]) ++
          (if known.haptoglobin then [] else ["Haptoglobin"]) ++
          (if known.indirect_bili then [] else ["Indirect bilirubin"])
        match missing with
        | [] =>
            if teaching then
              let parts :=
                (if inputs.ldh.isSome then [already_entered_label "ldh" inputs] else []) ++
                (if inputs.haptoglobin.isSome then [already_entered_label "haptoglobin" inputs] else []) ++
                (if inputs.indirect_bili.isSome then [already_entered_label "indirect_bili" inputs] else [])
              match parts with
              | [] => ["Already entered: Hemolysis markers available"]
              | _ => parts
            else []
        | _ => missing
      else if hasWord "LDH" s then
        if known.ldh then
          if teaching then [already_entered_label "ldh" inputs] else []
        else ["LDH"]
      else if hasWord "haptoglobin" s then
        if known.haptoglobin then
          if teaching then [already_entered_label "haptoglobin" inputs] else []
        else ["Haptoglobin"]
      else if hasWord "indirect" s || hasWord "bilirubin" s then
        if known.indirect_bili then
          if teaching then [already_entered_label "indirect_bili" inputs] else []
        else ["Indirect bilirubin"]
      else [String.mk s]
    else if hasAnyWord ["retic", "reticulocyte", "RPI"] s then
      if known.retic_any then
        if teaching then [already_entered_label "retic_any" inputs] else []
      else ["Reticulocyte count / RPI"]
    else if hasWord "TSH" s then
      if known.tsh then
        if teaching then [already_entered_label "tsh" inputs] else []
      else ["TSH"]
    else if hasAnyWord ["eGFR", "GFR", "creatinine"] s then
      if known.egfr then
        if teaching then [already_entered_label "egfr" inputs] else []
      else ["eGFR/creatinine"]
    else [String.mk s]

/-! ## Differential items (source `add_item`, lines 76–87) -/

/-- One candidate diagnosis (the dict built by `add_item`, source lines 76–87). -/
structure Item where
  title : String
  rationale : String := ""
  workup : List String := []
  rule : String := ""
  what_changes : String := ""
  priority : ℕ := 50
deriving DecidableEq

/-- The titles of a differential list. -/
def titles (l : List Item) : List String := l.map Item.title

/-- `dedupe_by_title` (source lines 89–96), with the `seen` set as a list. -/
def dedupeGo (seen : List String) : List Item → List Item
  | [] => []
  | it :: rest =>
      if it.title ∈ seen then dedupeGo seen rest
      else it :: dedupeGo (it.title :: seen) rest

/-- `dedupe_by_title` (source lines 89–96). -/
def dedupe_by_title (items : List Item) : List Item := dedupeGo [] items

/-- The key order of `sorted(dx, key=lambda x: x.get("priority", 50))`. -/
def priOrder (a b : Item) : Prop := a.priority ≤ b.priority

instance : DecidableRel priOrder :=
  fun a b => inferInstanceAs (Decidable (a.priority ≤ b.priority))

instance : IsTotal Item priOrder := ⟨fun a b => Nat.le_total a.priority b.priority⟩

instance : IsTrans Item priOrder := ⟨fun _ _ _ h1 h2 => Nat.le_trans h1 h2⟩

/-- `dx_sorted` (source line 991): Python's `sorted` is the stable ascending
sort by priority; any two stable sorts under the same key order agree, so it
is modelled by the stable `List.insertionSort`. -/
def dx_sorted (l : List Item) : List Item := List.insertionSort priOrder l

/-- `dx_unique` (source line 992). -/
def dx_unique (l : List Item) : List Item := dedupe_by_title (dx_sorted l)

/-! ## The rule items (source lines 758–989), with their source texts. -/

/-- Microcytic rule 1 (source lines 759–770). -/
def ironDefItem : Item :=
  { title := "Iron deficiency anemia"
    rationale := "Low ferritin supports depleted iron stores."
    workup := ["Action: assess source of blood loss (GI/menstrual)",
      "Action: consider GI evaluation when appropriate (age/risk-based)",
      "Action: consider celiac testing if indicated"]
    priority := 10 }

/-- Microcytic rule 2 (source lines 771–781). -/
def inflamIronItem : Item :=
  { title := "Anemia of chronic inflammation with functional iron deficiency"
    rationale := "Ferritin may be normal/high with low TSAT in inflammatory states."
    workup := ["Action: review chronic inflammatory/infectious disease history",
      "CRP/ESR (if inflammatory disease suspected)"]
    priority := 20 }

/-- Microcytic fallback rule (source lines 782–793). -/
def thalItem : Item :=
  { title := "Thalassemia trait / hemoglobinopathy"
    rationale := "Microcytosis without clear low ferritin may suggest thal trait or mixed etiologies."
    workup := ["Action: review CBC indices (RBC count, RDW)", "Peripheral smear review",
      "Hemoglobin electrophoresis"]
    priority := 30 }

/-- Normocytic appropriate-marrow rule, first item (source lines 797–807). -/
def bloodLossItem : Item :=
  { title := "Blood loss (acute or occult)"
    rationale := "Appropriate/high retic suggests response to loss (or recovery phase)."
    workup := ["Action: assess bleeding history", "Iron studies (Ferritin, TSAT)",
      "Action: consider stool testing/GI evaluation when appropriate"]
    priority := 15 }

/-- Normocytic appropriate-marrow rule, second item (source lines 808–818). -/
def hemolysisNormoItem : Item :=
  { title := "Hemolysis"
    rationale := "Appropriate/high retic can be seen in hemolysis; confirm with markers and smear."
    workup := ["Hemolysis markers (LDH, haptoglobin, indirect bilirubin)",
      "Peripheral smear review", "DAT/Coombs (if suspected AIHA)"]
    priority := 18 }

/-- Normocytic inadequate-marrow rule, first item (source lines 820–830). -/
def aciItem : Item :=
  { title := "Anemia of chronic inflammation"
    rationale := "Common hypoproliferative normocytic pattern in chronic disease."
    workup := ["Action: review chronic disease burden", "Iron studies (Ferritin, TSAT)",
      "CRP/ESR (if clinically indicated)"]
    priority := 20 }

/-- Normocytic CKD rule (source lines 831–842). -/
def ckdItem : Item :=
  { title := "Anemia associated with CKD"
    rationale := "CKD can cause hypoproliferative normocytic anemia; likelihood increases as eGFR declines."
    workup := ["Iron studies (Ferritin, TSAT)", "B12 and folate",
      "Action: assess for bleeding/iron loss as appropriate"]
    priority := 22 }

/-- Normocytic underproduction rule (source lines 843–853). -/
def marrowProcItem : Item :=
  { title := "Bone marrow process / underproduction (consider if persistent or with other cytopenias)"
    rationale := "Low retic with other cytopenias or abnormal smear can suggest marrow process/suppression."
    workup := ["Peripheral smear review", "Action: trend CBC",
      "Action: consider hematology referral if unexplained or with other cytopenias"]
    priority := 28 }

/-- Macrocytic secondary-causes rule (source lines 858–870). -/
def macroNotLowItem : Item :=
  { title := "Macrocytosis with B12/folate not low (consider alcohol/liver/thyroid/meds; marrow disorder if persistent)"
    rationale := "When B12/folate are not low, consider secondary causes; persistent unexplained macrocytosis—especially with cytopenias or dysplasia—warrants hematology evaluation."
    workup := ["TSH", "Action: consider LFTs", "Peripheral smear review",
      "Action: review meds/alcohol; consider hematology referral if persistent/unexplained"]
    priority := 25 }

/-- Global B12 rule (source lines 876–887). -/
def b12DefItem : Item :=
  { title := "Vitamin B12 deficiency"
    rationale := "Low B12 supports a megaloblastic process; MCV may be normal or low if concurrent iron deficiency or mixed etiologies."
    workup := ["MMA +/- homocysteine (if borderline)", "Action: assess diet/malabsorption risks",
      "Intrinsic factor antibody (if pernicious anemia suspected)"]
    priority := 12 }

/-- Global folate rule (source lines 889–899). -/
def folateDefItem : Item :=
  { title := "Folate deficiency"
    rationale := "Low folate supports a megaloblastic process; MCV may be normal or low if concurrent iron deficiency or mixed etiologies."
    workup := ["Action: assess nutrition/alcohol use",
      "Action: review folate-antagonist meds/exposures"]
    priority := 15 }

/-- Hemolysis-triad rule (source lines 904–916). -/
def hemolysisMarkersItem : Item :=
  { title := "Hemolysis (supported by markers)"
    rationale := "LDH high + haptoglobin low + indirect bilirubin high is a classic hemolysis pattern."
    workup := ["Peripheral smear review", "DAT/Coombs", "Reticulocyte count / RPI",
      "Action: consider G6PD if indicated"]
    priority := 8 }

/-- Hypothyroidism rule (source lines 918–929). -/
def hypothyroidItem : Item :=
  { title := "Hypothyroidism-associated anemia"
    rationale := "Elevated TSH can contribute to normocytic/macrocytic anemia."
    workup := ["Action: repeat TSH/FT4 if needed", "Iron studies (Ferritin, TSAT)",
      "B12 and folate"]
    priority := 35 }

/-- NSAID/aspirin exposure rule (source lines 931–942). -/
def nsaidItem : Item :=
  { title := "Medication-associated occult GI blood loss (NSAIDs/ASA)"
    rationale := "Chronic NSAID/ASA use can contribute to ulcer/gastritis-related blood loss."
    workup := ["Action: assess GI symptoms", "Iron studies (Ferritin, TSAT)",
      "Action: review need for NSAID/ASA"]
    priority := 40 }

/-- Anticoagulant exposure rule (source lines 944–951). -/
def anticoagItem : Item :=
  { title := "Bleeding risk contribution (anticoagulant/antiplatelet)"
    rationale := "These agents can increase bleeding risk and unmask occult sources."
    workup := ["Action: review medication indications", "Action: assess bleeding history"]
    priority := 42 }

/-- PPI/metformin exposure rule (source lines 953–960). -/
def ppiMetforminItem : Item :=
  { title := "Medication-associated B12 deficiency risk (PPI/metformin)"
    rationale := "Long-term PPI/metformin may reduce B12 absorption in some patients."
    workup := ["B12 and folate", "MMA +/- homocysteine (if borderline)",
      "Action: assess neuropathy/glossitis"]
    priority := 40 }

/-- Heavy-alcohol exposure rule (source lines 962–969). -/
def alcoholItem : Item :=
  { title := "Alcohol-related macrocytosis / nutritional deficiency"
    rationale := "Alcohol can cause macrocytosis and contribute to folate deficiency."
    workup := ["Action: consider LFTs", "B12 and folate",
      "Action: consider counseling/support resources"]
    priority := 45 }

/-- Marrow-suppressive medication class rule (source lines 971–989). -/
def marrowSuppressItem : Item :=
  { title := "Medication-associated marrow suppression / macrocytosis risk"
    rationale := "Several medications can suppress marrow or cause macrocytosis/cytopenias."
    workup := ["Action: review timing vs anemia onset", "Action: trend CBC",
      "Action: consider hematology referral if severe/persistent or with other cytopenias"]
    priority := 38 }

/-! ## The differential engine (source lines 753–992) -/

/-- The microcytic if/elif/else cascade (source lines 758–793). -/
def microcyticRules (ferritin tsat : Option ℚ) : List Item :=
  if oLt ferritin 30 then [ironDefItem]
  else if oGe ferritin 100 && oLt tsat 20 then [inflamIronItem]
  else [thalItem]

/-- The normocytic branch (source lines 795–853). -/
def normocyticRules (marrow : String) (egfr : Option ℚ) : List Item :=
  if marrow = "Appropriate (RPI ≥2)" ∨ marrow = "Appropriate/High retic" then
    [bloodLossItem, hemolysisNormoItem]
  else
    [aciItem] ++ (if oLt egfr 60 then [ckdItem] else []) ++ [marrowProcItem]

/-- The macrocytic branch (source lines 855–870). -/
def macrocyticRules (b12 folate : Option ℚ) : List Item :=
  if oNoneOrGe b12 200 && oNoneOrGe folate 4 then [macroNotLowItem] else []

/-- The full rule evaluation `dx` (source lines 753–989): MCV-specific blocks
then the global rules, appended in source order. -/
def dx (i : Inputs) : List Item :=
  (if i.mcv_cat = some "Microcytic (<80)" then microcyticRules i.ferritin i.tsat else []) ++
  (if i.mcv_cat = some "Normocytic (80–100)" then normocyticRules (marrowOf i) i.egfr else []) ++
  (if i.mcv_cat = some "Macrocytic (>100)" then macrocyticRules i.b12 i.folate else []) ++
  (if oLt i.b12 200 then [b12DefItem] else []) ++
  (if oLt i.folate 4 then [folateDefItem] else []) ++
  (if i.ldh = some "High" ∧ i.haptoglobin = some "Low" ∧ i.indirect_bili = some "High" then
    [hemolysisMarkersItem] else []) ++
  (if oGt i.tsh 5 then [hypothyroidItem] else []) ++
  (if "NSAIDs / aspirin (chronic)" ∈ i.exposures then [nsaidItem] else []) ++
  (if "Anticoagulant/antiplatelet use" ∈ i.exposures then [anticoagItem] else []) ++
  (if "PPI (long-term)" ∈ i.exposures ∨ "Metformin (long-term)" ∈ i.exposures then
    [ppiMetforminItem] else []) ++
  (if "Alcohol use (heavy)" ∈ i.exposures then [alcoholItem] else []) ++
  (if "Chemotherapy / antimetabolites" ∈ i.exposures ∨ "Linezolid" ∈ i.exposures ∨
      "Valproate" ∈ i.exposures ∨ "Zidovudine / other marrow-toxic antivirals" ∈ i.exposures ∨
      "Hydroxyurea" ∈ i.exposures ∨
      "Methotrexate / TMP-SMX / pyrimethamine (folate antagonists)" ∈ i.exposures then
    [marrowSuppressItem] else [])

/-- The final ranked, deduplicated differential (source lines 991–992). -/
def differential (i : Inputs) : List Item := dx_unique (dx i)

/-! ## Referral-trigger evaluator (source lines 1083–1097) -/

/-- Referral reason 1 (source line 1085). -/
def severe_anemia_reason : String :=
  "Severe anemia with symptoms/high-risk features (coordinate urgent evaluation; hematology input may be appropriate)."

/-- Referral reason 2 (source line 1087). -/
def cytopenias_reason : String :=
  "Anemia with other cytopenias (WBC/platelets low) or pancytopenia."

/-- Referral reason 3 (source line 1089). -/
def smear_reason : String :=
  "Abnormal smear (e.g., blasts, schistocytes, dysplasia) or concerning morphology."

/-- Referral reason 4 (source line 1091). -/
def hemolysis_reason : String :=
  "Suspected hemolysis (especially if unexplained, severe, or with abnormal smear)."

/-- Referral reason 5 (source line 1093). -/
def micro_iron_reason : String :=
  "Microcytic anemia with missing iron studies or unclear etiology after initial evaluation."

/-- Referral reason 6 (source line 1095). -/
def macro_vits_reason : String :=
  "Macrocytic anemia without B12/folate evaluation or persistent macrocytosis without clear cause."

/-- Referral reason 7 (source line 1097). -/
def macro_marrow_reason : String :=
  "Macrocytosis with cytopenias or abnormal smear: consider marrow disorder; hematology evaluation is appropriate."

/-- `x in ("Yes", "Unknown")`. -/
def inYU (x : Option String) : Bool := x = some "Yes" || x = some "Unknown"

/-- `referral_reasons` (source lines 1083–1097): the independently evaluated
trigger conditions, appended in source order. -/
def referral_reasons (i : Inputs) : List String :=
  let known := build_known (entered_inputs i)
  (if oLt i.hb 7 && (inYU i.symptomatic_any || inYU i.high_risk_symptoms) then
    [severe_anemia_reason] else []) ++
  (if inYU i.other_cytopenias then [cytopenias_reason] else []) ++
  (if inYU i.smear_abnormal then [smear_reason] else []) ++
  (if (i.ldh = some "High" ∧ i.haptoglobin = some "Low") ∨
      (i.indirect_bili = some "High" ∧ i.ldh = some "High") then
    [hemolysis_reason] else []) ++
  (if i.mcv_cat = some "Microcytic (<80)" ∧ known.iron_any = false then
    [micro_iron_reason] else []) ++
  (if i.mcv_cat = some "Macrocytic (>100)" ∧ (known.b12 && known.folate) = false then
    [macro_vits_reason] else []) ++
  (if i.mcv_cat = some "Macrocytic (>100)" ∧ (known.b12 && known.folate) = true ∧
      (inYU i.other_cytopenias || inYU i.smear_abnormal) then
    [macro_marrow_reason] else [])

/-! ## General lemmas about the ranking and dedup pipeline -/

theorem titles_nil : titles [] = [] := rfl

theorem titles_cons (a : Item) (l : List Item) : titles (a :: l) = a.title :: titles l := rfl

theorem titles_append (l1 l2 : List Item) : titles (l1 ++ l2) = titles l1 ++ titles l2 :=
  List.map_append _ _ _

theorem titles_ite {c : Prop} [Decidable c] (l1 l2 : List Item) :
    titles (if c then l1 else l2) = if c then titles l1 else titles l2 :=
  apply_ite titles c l1 l2

theorem mem_ite_nil {α : Type} {c : Prop} [Decidable c] {t : α} {l : List α} :
    (t ∈ if c then l else []) ↔ (c ∧ t ∈ l) := by
  split <;> simp_all

theorem dedupeGo_sublist : ∀ (l : List Item) (seen : List String),
    List.Sublist (dedupeGo seen l) l
  | [], _ => List.nil_sublist []
  | it :: rest, seen => by
      unfold dedupeGo
      split
      · exact (dedupeGo_sublist rest seen).cons it
      · exact (dedupeGo_sublist rest (it.title :: seen)).cons₂ it

theorem mem_titles_dedupeGo : ∀ (l : List Item) (seen : List String) (t : String),
    t ∈ titles (dedupeGo seen l) ↔ (t ∈ titles l ∧ t ∉ seen)
  | [], seen, t => by simp [dedupeGo, titles_nil]
  | it :: rest, seen, t => by
      unfold dedupeGo
      split
      next h =>
        rw [mem_titles_dedupeGo rest seen t, titles_cons, List.mem_cons]
        constructor
        · exact fun hm => ⟨Or.inr hm.1, hm.2⟩
        · rintro ⟨heq | hm, hs⟩
          · exact absurd (heq ▸ h) hs
          · exact ⟨hm, hs⟩
      next h =>
        simp only [titles_cons, List.mem_cons, mem_titles_dedupeGo rest (it.title :: seen) t]
        constructor
        · rintro (rfl | ⟨hm, hs⟩)
          · exact ⟨Or.inl rfl, h⟩
          · exact ⟨Or.inr hm, fun hc => hs (Or.inr hc)⟩
        · rintro ⟨heq | hm, hs⟩
          · exact Or.inl heq
          · by_cases ht : t = it.title
            · exact Or.inl ht
            · exact Or.inr ⟨hm, by
                rintro (h1 | h2)
                · exact ht h1
                · exact hs h2⟩

theorem titles_dedupeGo_nodup : ∀ (l : List Item) (seen : List String),
    (titles (dedupeGo seen l)).Nodup
  | [], _ => by simp [dedupeGo, titles_nil]
  | it :: rest, seen => by
      unfold dedupeGo
      split
      · exact titles_dedupeGo_nodup rest seen
      · rw [titles_cons, List.nodup_cons]
        refine ⟨fun hmem => ?_, titles_dedupeGo_nodup rest (it.title :: seen)⟩
        rw [mem_titles_dedupeGo] at hmem
        exact hmem.2 (List.mem_cons_self _ _)

theorem dedupeGo_find? : ∀ (l : List Item) (seen : List String) (t : String), t ∉ seen →
    List.find? (fun x => x.title == t) (dedupeGo seen l) =
      List.find? (fun x => x.title == t) l
  | [], _, _, _ => rfl
  | it :: rest, seen, t, ht => by
      unfold dedupeGo
      split
      next h =>
        rw [dedupeGo_find? rest seen t ht, List.find?_cons_of_neg]
        simp only [beq_iff_eq]
        intro he
        exact ht (he ▸ h)
      next h =>
        by_cases hp : it.title = t
        · rw [List.find?_cons_of_pos _ (by simp [hp]), List.find?_cons_of_pos _ (by simp [hp])]
        · rw [List.find?_cons_of_neg _ (by simp [hp]), List.find?_cons_of_neg _ (by simp [hp])]
          refine dedupeGo_find? rest (it.title :: seen) t ?_
          intro hc
          rcases List.mem_cons.mp hc with h1 | h2
          · exact hp h1.symm
          · exact ht h2

theorem sorted_find?_priority_le {S : List Item} (hp : S.Pairwise priOrder) :
    ∀ {x : Item}, x ∈ S → ∀ {y : Item},
      List.find? (fun z => z.title == x.title) S = some y → y.priority ≤ x.priority := by
  induction S with
  | nil => intro x hx; cases hx
  | cons z rest ih =>
      intro x hx y hf
      by_cases hz : ((fun z : Item => z.title == x.title) z) = true
      · rw [@List.find?_cons_of_pos _ (fun z : Item => z.title == x.title) z rest hz] at hf
        injection hf with hyz
        subst hyz
        rcases List.mem_cons.mp hx with rfl | hm
        · exact Nat.le_refl _
        · exact (List.pairwise_cons.mp hp).1 x hm
      · rw [@List.find?_cons_of_neg _ (fun z : Item => z.title == x.title) z rest hz] at hf
        rcases List.mem_cons.mp hx with rfl | hm
        · simp at hz
        · exact ih (List.pairwise_cons.mp hp).2 hm hf

theorem mem_titles_dx_sorted (l : List Item) (t : String) :
    t ∈ titles (dx_sorted l) ↔ t ∈ titles l :=
  ((List.perm_insertionSort priOrder l).map Item.title).mem_iff

theorem mem_titles_dx_unique (l : List Item) (t : String) :
    t ∈ titles (dx_unique l) ↔ t ∈ titles l := by
  unfold dx_unique dedupe_by_title
  rw [mem_titles_dedupeGo]
  simp only [List.not_mem_nil, not_false_iff, and_true]
  exact mem_titles_dx_sorted l t

theorem mem_titles_differential (i : Inputs) (t : String) :
    t ∈ titles (differential i) ↔ t ∈ titles (dx i) :=
  mem_titles_dx_unique (dx i) t

/-- Which titles the rule evaluation can produce, rule by rule. -/
theorem mem_titles_dx (i : Inputs) (t : String) :
    t ∈ titles (dx i) ↔
      ((i.mcv_cat = some "Microcytic (<80)" ∧ t ∈ titles (microcyticRules i.ferritin i.tsat)) ∨
       (i.mcv_cat = some "Normocytic (80–100)" ∧
         t ∈ titles (normocyticRules (marrowOf i) i.egfr)) ∨
       (i.mcv_cat = some "Macrocytic (>100)" ∧ t ∈ titles (macrocyticRules i.b12 i.folate)) ∨
       (oLt i.b12 200 = true ∧ t = "Vitamin B12 deficiency") ∨
       (oLt i.folate 4 = true ∧ t = "Folate deficiency") ∨
       ((i.ldh = some "High" ∧ i.haptoglobin = some "Low" ∧ i.indirect_bili = some "High") ∧
         t = "Hemolysis (supported by markers)") ∨
       (oGt i.tsh 5 = true ∧ t = "Hypothyroidism-associated anemia") ∨
       ("NSAIDs / aspirin (chronic)" ∈ i.exposures ∧
         t = "Medication-associated occult GI blood loss (NSAIDs/ASA)") ∨
       ("Anticoagulant/antiplatelet use" ∈ i.exposures ∧
         t = "Bleeding risk contribution (anticoagulant/antiplatelet)") ∨
       (("PPI (long-term)" ∈ i.exposures ∨ "Metformin (long-term)" ∈ i.exposures) ∧
         t = "Medication-associated B12 deficiency risk (PPI/metformin)") ∨
       ("Alcohol use (heavy)" ∈ i.exposures ∧
         t = "Alcohol-related macrocytosis / nutritional deficiency") ∨
       (("Chemotherapy / antimetabolites" ∈ i.exposures ∨ "Linezolid" ∈ i.exposures ∨
          "Valproate" ∈ i.exposures ∨ "Zidovudine / other marrow-toxic antivirals" ∈ i.exposures ∨
          "Hydroxyurea" ∈ i.exposures ∨
          "Methotrexate / TMP-SMX / pyrimethamine (folate antagonists)" ∈ i.exposures) ∧
         t = "Medication-associated marrow suppression / macrocytosis risk")) := by
  unfold dx
  simp only [titles_append, List.mem_append, titles_ite, mem_ite_nil, titles_cons, titles_nil,
    List.mem_singleton, b12DefItem, folateDefItem, hemolysisMarkersItem, hypothyroidItem,
    nsaidItem, anticoagItem, ppiMetforminItem, alcoholItem, marrowSuppressItem]
  simp only [or_assoc]

/-! ## C1: the microcytic cascade -/

/-- The spec's microcytic threshold table, stated from the spec's own words
(for the refinement comparison): ferritin<30 → iron deficiency;
ferritin≥100 ∧ TSAT<20 → functional iron deficiency/inflammation;
else (including ferritin unknown) → thalassemia/hemoglobinopathy. -/
def microPrimaryTitleSpec (ferritin tsat : Option ℚ) : String :=
  match ferritin with
  | some f =>
      if f < 30 then "Iron deficiency anemia"
      else
        match tsat with
        | some ts =>
            if 100 ≤ f ∧ ts < 20 then
              "Anemia of chronic inflammation with functional iron deficiency"
            else "Thalassemia trait / hemoglobinopathy"
        | none => "Thalassemia trait / hemoglobinopathy"
  | none => "Thalassemia trait / hemoglobinopathy"

/-- An evaluation where the MCV category is Microcytic and, apart from the
iron studies, no other rule-triggering data is entered. -/
def microInputsOnly (f ts : Option ℚ) : Inputs :=
  { mcv_cat := some "Microcytic (<80)", ferritin := f, tsat := ts }

theorem microcyticRules_titles (f ts : Option ℚ) :
    titles (microcyticRules f ts) = [microPrimaryTitleSpec f ts] := by
  unfold microcyticRules microPrimaryTitleSpec
  cases f with
  | none => simp [oLt, oGe, titles, thalItem]
  | some fv =>
      cases ts with
      | none =>
          by_cases h1 : fv < 30 <;>
            simp [oLt, oGe, h1, titles, ironDefItem, thalItem]
      | some tv =>
          by_cases h1 : fv < 30
          · simp [oLt, h1, titles, ironDefItem]
          · by_cases h2 : 100 ≤ fv <;> by_cases h3 : tv < 20 <;>
              simp [oLt, oGe, h1, h2, h3, titles, inflamIronItem, thalItem]

theorem dx_microInputsOnly (f ts : Option ℚ) :
    dx (microInputsOnly f ts) = microcyticRules f ts := by
  simp [dx, microInputsOnly, oLt, oGt]

/-- **C1**: with mcvCategory = Microcytic the branch adds exactly one primary
item, chosen by the if/elif/else cascade of the spec's threshold table
(ferritin entered and < 30 → iron deficiency; ferritin entered and ≥ 100 with
TSAT entered and < 20 → chronic inflammation with functional iron deficiency;
otherwise, including ferritin unknown → thalassemia trait/hemoglobinopathy),
and with no other triggering data entered that item is the top — indeed the
only — item of the final differential. -/
theorem microcytic_primary (f ts : Option ℚ) :
    titles (microcyticRules f ts) = [microPrimaryTitleSpec f ts] ∧
    titles (differential (microInputsOnly f ts)) = [microPrimaryTitleSpec f ts] := by
  refine ⟨microcyticRules_titles f ts, ?_⟩
  have hone : ∃ it : Item, microcyticRules f ts = [it] := by
    unfold microcyticRules
    split
    · exact ⟨ironDefItem, rfl⟩
    · split
      · exact ⟨inflamIronItem, rfl⟩
      · exact ⟨thalItem, rfl⟩
  obtain ⟨it, hit⟩ := hone
  have : differential (microInputsOnly f ts) = [it] := by
    unfold differential dx_unique
    rw [dx_microInputsOnly, hit]
    rfl
  rw [this, ← hit, microcyticRules_titles f ts]

/-! ## C2: the global B12/folate rules -/

/-- **C2**: whichever of the three MCV categories is selected, b12 entered
and < 200 puts "Vitamin B12 deficiency" in the final differential, and folate
entered and < 4 puts "Folate deficiency" there, independently of which
MCV-specific branch fired. -/
theorem global_b12_folate_rules (i : Inputs)
    (_hmcv : i.mcv_cat = some "Microcytic (<80)" ∨ i.mcv_cat = some "Normocytic (80–100)" ∨
      i.mcv_cat = some "Macrocytic (>100)") :
    (∀ v : ℚ, i.b12 = some v → v < 200 →
      "Vitamin B12 deficiency" ∈ titles (differential i)) ∧
    (∀ v : ℚ, i.folate = some v → v < 4 →
      "Folate deficiency" ∈ titles (differential i)) := by
  constructor
  · intro v hv hlt
    rw [mem_titles_differential, mem_titles_dx]
    have hb : oLt i.b12 200 = true := by simp [oLt, hv, hlt]
    exact Or.inr (Or.inr (Or.inr (Or.inl ⟨hb, rfl⟩)))
  · intro v hv hlt
    rw [mem_titles_differential, mem_titles_dx]
    have hb : oLt i.folate 4 = true := by simp [oLt, hv, hlt]
    exact Or.inr (Or.inr (Or.inr (Or.inr (Or.inl ⟨hb, rfl⟩))))

/-- The C2 witness evaluation: normocytic, b12 = 150, folate = 2. -/
def c2Inputs : Inputs :=
  { mcv_cat := some "Normocytic (80–100)", b12 := some 150, folate := some 2 }

/-- Witness for C2 at b12 = 150 and folate = 2 under the normocytic category. -/
theorem global_b12_folate_rules_witness :
    "Vitamin B12 deficiency" ∈ titles (differential c2Inputs) ∧
    "Folate deficiency" ∈ titles (differential c2Inputs) :=
  ⟨(global_b12_folate_rules c2Inputs (Or.inr (Or.inl rfl))).1 150 rfl (by norm_num),
   (global_b12_folate_rules c2Inputs (Or.inr (Or.inl rfl))).2 2 rfl (by norm_num)⟩

/-! ## C3: the differential-list invariant -/

/-- **C3**: for every input, the final differential has pairwise-distinct
titles; it is ordered by ascending priority; it is obtained from the stably
sorted list by deleting later duplicates only (a sublist); any two rule items
in priority order — in particular equal-priority items in their
rule-evaluation order — keep their relative order through the sort; the first
occurrence of every title in the sorted list is the one the dedup keeps; and
every sorted item is represented in the final differential by an item with
the same title and a priority no larger than its own. -/
theorem differential_ranked_dedup (i : Inputs) :
    (titles (differential i)).Nodup ∧
    (differential i).Pairwise priOrder ∧
    List.Sublist (differential i) (dx_sorted (dx i)) ∧
    (∀ a b : Item, List.Sublist [a, b] (dx i) → a.priority ≤ b.priority →
      List.Sublist [a, b] (dx_sorted (dx i))) ∧
    (∀ t : String, List.find? (fun x => x.title == t) (differential i) =
      List.find? (fun x => x.title == t) (dx_sorted (dx i))) ∧
    (∀ x ∈ dx_sorted (dx i), ∃ y ∈ differential i,
      y.title = x.title ∧ y.priority ≤ x.priority) := by
  have hs : (dx_sorted (dx i)).Pairwise priOrder :=
    List.sorted_insertionSort priOrder (dx i)
  refine ⟨titles_dedupeGo_nodup _ [], ?_, dedupeGo_sublist _ [], ?_, ?_, ?_⟩
  · exact List.Pairwise.sublist (dedupeGo_sublist _ []) hs
  · exact fun a b hab hle => List.pair_sublist_insertionSort hle hab
  · exact fun t => dedupeGo_find? _ [] t (List.not_mem_nil t)
  · intro x hx
    have hsome : (List.find? (fun z => z.title == x.title) (dx_sorted (dx i))).isSome :=
      List.find?_isSome.mpr ⟨x, hx, by simp⟩
    obtain ⟨y, hy⟩ := Option.isSome_iff_exists.mp hsome
    refine ⟨y, ?_, ?_, sorted_find?_priority_le hs hx hy⟩
    · have hfd : List.find? (fun z => z.title == x.title) (differential i) = some y := by
        show List.find? (fun z => z.title == x.title)
          (dedupeGo [] (dx_sorted (dx i))) = some y
        rw [dedupeGo_find? _ [] _ (List.not_mem_nil _)]
        exact hy
      exact List.mem_of_find?_eq_some hfd
    · simpa using List.find?_some hy

/-- The C3 witness evaluation: normocytic with a High qualitative retic and
low folate, so that the rule list holds two equal-priority items. -/
def c3Inputs : Inputs :=
  { mcv_cat := some "Normocytic (80–100)", retic_qual := some "High", folate := some 2 }

/-- Witness for C3: "Blood loss" and "Folate deficiency" both carry priority
15 and arise in that rule order, and the stable sort keeps them adjacent in
that order ahead of the priority-18 item. -/
theorem differential_ranked_dedup_witness :
    List.Sublist [bloodLossItem, folateDefItem] (dx_sorted (dx c3Inputs)) :=
  (differential_ranked_dedup c3Inputs).2.2.2.1 bloodLossItem folateDefItem
    (by decide) (by decide)

/-! ## C5: the marrow-response label -/

/-- **C5**: the marrow-response label gives a computed RPI precedence over
the qualitative retic: with rpi present it is "Appropriate (RPI ≥2)" exactly
when rpi ≥ 2 (so rpi = 2.0 is Appropriate) and "Inadequate (RPI <2)"
otherwise; with rpi absent, High ↦ Appropriate/High retic, Low ↦
Inadequate/Low retic, Normal ↦ Unknown; with neither, Unknown. -/
theorem marrow_response_rules (r : Option ℚ) (q : Option String) :
    (∀ v : ℚ, r = some v →
      marrow_response r q =
        if 2 ≤ v then "Appropriate (RPI ≥2)" else "Inadequate (RPI <2)") ∧
    (r = none → q = some "High" → marrow_response r q = "Appropriate/High retic") ∧
    (r = none → q = some "Low" → marrow_response r q = "Inadequate/Low retic") ∧
    (r = none → q = some "Normal" → marrow_response r q = "Unknown") ∧
    (r = none → q = none → marrow_response r q = "Unknown") := by
  refine ⟨?_, ?_, ?_, ?_, ?_⟩
  · rintro v rfl; rfl
  · rintro rfl rfl; rfl
  · rintro rfl rfl; rfl
  · rintro rfl rfl; rfl
  · rintro rfl rfl; rfl

/-- Witness for C5 at the boundary rpi = 2.0, with a conflicting Low
qualitative retic that the RPI overrides. -/
theorem marrow_response_rules_witness :
    marrow_response (some 2) (some "Low") = "Appropriate (RPI ≥2)" := by
  have h := (marrow_response_rules (some 2) (some "Low")).1 2 rfl
  rw [h]
  norm_num

/-! ## C6: the corrected-retic / RPI computation is guarded and total -/

theorem maturation_factor_pos (h : ℚ) :
    ∃ m : ℚ, maturation_factor (some h) = some m ∧ m ≠ 0 := by
  simp only [maturation_factor]
  split_ifs <;> exact ⟨_, rfl, by norm_num⟩

/-- **C6**: correctedRetic is computed exactly when retic% and hematocrit are
entered and the expected hematocrit (defaulting to 40 when blank) is nonzero;
rpi is defined exactly when correctedRetic is, and every computed rpi arose
as correctedRetic divided by a present, nonzero maturation factor — in every
other case the values are null, never an error. -/
theorem retic_rpi_guarded (i : Inputs) :
    ((corrected_retic i).isSome ↔
      (i.retic_pct.isSome ∧ i.hct.isSome ∧ expected_hct i ≠ 0)) ∧
    (i.expected_hct_input = none → expected_hct i = 40) ∧
    ((rpi i).isSome ↔ (corrected_retic i).isSome) ∧
    (∀ rp h : ℚ, i.retic_pct = some rp → i.hct = some h → expected_hct i ≠ 0 →
      corrected_retic i = some (rp * (h / expected_hct i))) ∧
    (∀ r : ℚ, rpi i = some r → ∃ c m : ℚ, corrected_retic i = some c ∧
      maturation_factor i.hct = some m ∧ m ≠ 0 ∧ r = c / m) := by
  refine ⟨?_, ?_, ?_, ?_, ?_⟩
  · cases hrp : i.retic_pct <;> cases hh : i.hct <;>
      simp only [corrected_retic, hrp, hh] <;> simp
  · intro h
    simp [expected_hct, h]
  · constructor
    · intro hsome
      cases hc : corrected_retic i with
      | none => rw [rpi, hc] at hsome; simp at hsome
      | some c => simp
    · intro hsome
      obtain ⟨c, hc⟩ := Option.isSome_iff_exists.mp hsome
      have hh : i.hct.isSome := by
        rcases hc2 : i.hct with _ | h
        · rw [corrected_retic, hc2] at hc
          cases hrp : i.retic_pct <;> simp [hrp] at hc
        · simp
      obtain ⟨h, hh2⟩ := Option.isSome_iff_exists.mp hh
      obtain ⟨m, hm, hm0⟩ := maturation_factor_pos h
      rw [rpi, hc, hh2, hm]
      show (if m ≠ 0 then some (c / m) else none).isSome = true
      rw [if_pos hm0]
      rfl
  · intro rp h hrp hh hne
    simp [corrected_retic, hrp, hh, hne]
  · intro r hr
    cases hc : corrected_retic i with
    | none => rw [rpi, hc] at hr; simp at hr
    | some c =>
        cases hm : maturation_factor i.hct with
        | none => rw [rpi, hc, hm] at hr; simp at hr
        | some m =>
            rw [rpi, hc, hm] at hr
            have hr2 : (if m ≠ 0 then some (c / m) else none) = some r := hr
            by_cases hm0 : m ≠ 0
            · rw [if_pos hm0] at hr2
              injection hr2 with hr3
              exact ⟨c, m, rfl, rfl, hm0, hr3.symm⟩
            · rw [if_neg hm0] at hr2
              cases hr2

/-- The C6 witness evaluation: retic% = 4, hct = 30, expected hct blank. -/
def c6Inputs : Inputs := { hct := some 30, retic_pct := some 4 }

/-- Witness for C6: the expected hematocrit defaults to 40, the corrected
retic is computed, and rpi = 2 arises as correctedRetic / maturationFactor
with a nonzero factor. -/
theorem retic_rpi_guarded_witness :
    expected_hct c6Inputs = 40 ∧
    corrected_retic c6Inputs = some ((4 : ℚ) * ((30 : ℚ) / expected_hct c6Inputs)) ∧
    (∃ c m : ℚ, corrected_retic c6Inputs = some c ∧
      maturation_factor c6Inputs.hct = some m ∧ m ≠ 0 ∧ (2 : ℚ) = c / m) := by
  refine ⟨(retic_rpi_guarded c6Inputs).2.1 rfl, ?_, ?_⟩
  · refine (retic_rpi_guarded c6Inputs).2.2.2.1 4 30 rfl rfl ?_
    have h40 : expected_hct c6Inputs = 40 := (retic_rpi_guarded c6Inputs).2.1 rfl
    rw [h40]
    norm_num
  · refine (retic_rpi_guarded c6Inputs).2.2.2.2 2 ?_
    with_unfolding_all rfl

/-! ## C7: the normocytic branch -/

/-- The branch condition of the normocytic rules (source line 796): the
marrow response is appropriate, i.e. RPI ≥ 2 or qualitative High retic. -/
def appropriateMarrow (marrow : String) : Prop :=
  marrow = "Appropriate (RPI ≥2)" ∨ marrow = "Appropriate/High retic"

instance (marrow : String) : Decidable (appropriateMarrow marrow) :=
  inferInstanceAs (Decidable (_ ∨ _))

theorem mem_titles_normocyticRules (marrow : String) (egfr : Option ℚ) (t : String) :
    t ∈ titles (normocyticRules marrow egfr) ↔
      ((appropriateMarrow marrow ∧
        (t = "Blood loss (acute or occult)" ∨ t = "Hemolysis")) ∨
       (¬appropriateMarrow marrow ∧
        (t = "Anemia of chronic inflammation" ∨
         (oLt egfr 60 = true ∧ t = "Anemia associated with CKD") ∨
         t = "Bone marrow process / underproduction (consider if persistent or with other cytopenias)"))) := by
  unfold normocyticRules
  simp only [appropriateMarrow]
  split_ifs with h h2
  · simp [titles_cons, titles_nil, bloodLossItem, hemolysisNormoItem, h]
  · simp [titles_append, titles_cons, titles_nil, List.mem_append, aciItem, ckdItem,
      marrowProcItem, h, h2]
  · simp [titles_append, titles_cons, titles_nil, List.mem_append, aciItem, ckdItem,
      marrowProcItem, h, h2]

/-- **C7**: for a normocytic evaluation, an appropriate marrow response (RPI
≥ 2 or qualitative High) puts both the blood-loss item and the hemolysis item
into the final differential; otherwise the chronic-inflammation item and the
bone-marrow-underproduction item are added, plus the CKD item exactly when
egfr is entered and below 60. -/
theorem normocytic_branch (i : Inputs)
    (hmcv : i.mcv_cat = some "Normocytic (80–100)") :
    (appropriateMarrow (marrowOf i) →
      "Blood loss (acute or occult)" ∈ titles (differential i) ∧
      "Hemolysis" ∈ titles (differential i)) ∧
    (¬appropriateMarrow (marrowOf i) →
      "Anemia of chronic inflammation" ∈ titles (differential i) ∧
      "Bone marrow process / underproduction (consider if persistent or with other cytopenias)" ∈
        titles (differential i) ∧
      ("Anemia associated with CKD" ∈ titles (differential i) ↔ oLt i.egfr 60 = true)) := by
  constructor
  · intro happ
    constructor <;>
      · rw [mem_titles_differential, mem_titles_dx]
        refine Or.inr (Or.inl ⟨hmcv, ?_⟩)
        rw [mem_titles_normocyticRules]
        simp [happ]
  · intro hnot
    refine ⟨?_, ?_, ?_⟩
    · rw [mem_titles_differential, mem_titles_dx]
      refine Or.inr (Or.inl ⟨hmcv, ?_⟩)
      rw [mem_titles_normocyticRules]
      simp [hnot]
    · rw [mem_titles_differential, mem_titles_dx]
      refine Or.inr (Or.inl ⟨hmcv, ?_⟩)
      rw [mem_titles_normocyticRules]
      simp [hnot]
    · constructor
      · intro hckd
        rw [mem_titles_differential, mem_titles_dx] at hckd
        simp only [hmcv, Option.some.injEq, mem_titles_normocyticRules] at hckd
        simp [hnot] at hckd
        exact hckd
      · intro hlt
        rw [mem_titles_differential, mem_titles_dx]
        refine Or.inr (Or.inl ⟨hmcv, ?_⟩)
        rw [mem_titles_normocyticRules]
        exact Or.inr ⟨hnot, Or.inr (Or.inl ⟨hlt, rfl⟩)⟩

/-- The C7 witness evaluations: one appropriate (High retic), one inadequate
(Low retic) with eGFR 45. -/
def c7aInputs : Inputs := { mcv_cat := some "Normocytic (80–100)", retic_qual := some "High" }

/-- Second C7 witness evaluation (inadequate marrow response, low eGFR). -/
def c7bInputs : Inputs :=
  { mcv_cat := some "Normocytic (80–100)", retic_qual := some "Low", egfr := some 45 }

/-- Witness for C7: with a High retic the hemolysis candidate appears; with a
Low retic and eGFR 45 the CKD candidate appears. -/
theorem normocytic_branch_witness :
    "Hemolysis" ∈ titles (differential c7aInputs) ∧
    "Anemia associated with CKD" ∈ titles (differential c7bInputs) :=
  ⟨((normocytic_branch c7aInputs rfl).1 (Or.inr rfl)).2,
   ((normocytic_branch c7bInputs rfl).2 (by decide)).2.2.mpr (by decide)⟩

/-! ## C8: the severe-anemia referral trigger -/

theorem severe_mem_referral (i : Inputs) :
    severe_anemia_reason ∈ referral_reasons i ↔
      (oLt i.hb 7 && (inYU i.symptomatic_any || inYU i.high_risk_symptoms)) = true := by
  simp [referral_reasons, mem_ite_nil, severe_anemia_reason, cytopenias_reason, smear_reason,
    hemolysis_reason, micro_iron_reason, macro_vits_reason, macro_marrow_reason]

/-- **C8 (amended)**: the severe-anemia referral reason appears exactly when
hemoglobin is entered and < 7 and symptomaticAny or highRiskSymptoms is
answered Yes or Unknown (the code counts an explicit "Unknown" answer as
potentially symptomatic); in particular hb = 6.5 with symptomaticAny = Yes
yields exactly that reason, and hb = 9 with symptomaticAny = No and no other
trigger satisfied yields the empty reason list. -/
theorem referral_severe_trigger :
    (∀ i : Inputs, severe_anemia_reason ∈ referral_reasons i ↔
      (oLt i.hb 7 = true ∧
        (inYU i.symptomatic_any = true ∨ inYU i.high_risk_symptoms = true))) ∧
    referral_reasons { hb := some (13 / 2), symptomatic_any := some "Yes" } =
      [severe_anemia_reason] ∧
    referral_reasons { hb := some 9, symptomatic_any := some "No" } = [] := by
  refine ⟨?_, ?_, by decide⟩
  · intro i
    rw [severe_mem_referral]
    simp
  · with_unfolding_all rfl

/-- The C8 counterexample evaluation: hb = 6, symptomaticAny explicitly
answered "Unknown", nothing else entered. -/
def c8Inputs : Inputs :=
  { hb := some 6, symptomatic_any := some "Unknown", mcv_cat := some "Normocytic (80–100)" }

/-- Counterexample to C8 as stated: the patient is not reported symptomatic
and has no reported high-risk symptoms (symptomaticAny = "Unknown",
highRiskSymptoms unset), hemoglobin is 6, and the code still emits the
severe-anemia referral reason — so "included exactly when the patient is
symptomatic or has high-risk symptoms" fails at this input. -/
theorem referral_severe_counterexample :
    severe_anemia_reason ∈ referral_reasons c8Inputs ∧
    c8Inputs.symptomatic_any = some "Unknown" ∧ c8Inputs.high_risk_symptoms = none ∧
    ¬(severe_anemia_reason ∈ referral_reasons c8Inputs ↔
      (oLt c8Inputs.hb 7 = true ∧
        (c8Inputs.symptomatic_any = some "Yes" ∨
          c8Inputs.high_risk_symptoms = some "Yes"))) := by
  refine ⟨by decide, rfl, rfl, ?_⟩
  intro hiff
  have h2 := hiff.mp (by decide)
  rcases h2.2 with h | h <;> simp [c8Inputs] at h

/-! ## C4: composite suggestions decompose into their missing constituents -/

/-- **C4**: with ferritin known and TSAT unknown, resolving the composite
"Iron studies (Ferritin, TSAT)" suggestion yields exactly the TSAT request —
not the empty list and not ferritin; symmetrically the B12/folate bundle and
the three-marker hemolysis bundle yield exactly their still-missing
constituents whenever at least one constituent is unknown, in teaching and
non-teaching mode alike. -/
theorem composite_suggestions_decompose (k : Known) (e : Entered) (teaching : Bool) :
    (k.ferritin = true → k.tsat = false →
      expand_and_filter_suggestion "Iron studies (Ferritin, TSAT)" k e teaching =
        ["Transferrin saturation (TSAT)"]) ∧
    ((k.b12 = false ∨ k.folate = false) →
      expand_and_filter_suggestion "B12 and folate" k e teaching =
        (if k.b12 then [] else ["Vitamin B12"]) ++
        (if k.folate then [] else ["Folate"])) ∧
    ((k.ldh = false ∨ k.haptoglobin = false ∨ k.indirect_bili = false) →
      expand_and_filter_suggestion
          "Hemolysis markers (LDH, haptoglobin, indirect bilirubin)" k e teaching =
        (if k.ldh then [] else ["LDH"]) ++
        (if k.haptoglobin then [] else ["Haptoglobin"]) ++
        (if k.indirect_bili then [] else ["Indirect bilirubin"])) := by
  obtain ⟨ktsh, kegfr, kfer, ktsat, kb12, kfol, kldh, khap, kib, krp, krq, krpi, k1, k2, k3, k4⟩ := k
  refine ⟨?_, ?_, ?_⟩
  · rintro rfl rfl
    rfl
  · intro h
    cases kb12 <;> cases kfol <;>
      first
        | rfl
        | (exfalso; rcases h with h | h <;> simp at h)
  · intro h
    cases kldh <;> cases khap <;> cases kib <;>
      first
        | rfl
        | (exfalso; rcases h with h | h | h <;> simp at h)

/-- The C4 witness flags: ferritin known, TSAT unknown; folate known, b12
unknown; haptoglobin known, LDH and indirect bilirubin unknown. -/
def c4Known : Known := { ferritin := true, folate := true, haptoglobin := true }

/-- Witness for C4 in teaching mode at the flags of `c4Known`. -/
theorem composite_suggestions_decompose_witness :
    expand_and_filter_suggestion "Iron studies (Ferritin, TSAT)" c4Known {} true =
      ["Transferrin saturation (TSAT)"] ∧
    expand_and_filter_suggestion "B12 and folate" c4Known {} true = ["Vitamin B12"] ∧
    expand_and_filter_suggestion
        "Hemolysis markers (LDH, haptoglobin, indirect bilirubin)" c4Known {} true =
      ["LDH", "Indirect bilirubin"] :=
  ⟨(composite_suggestions_decompose c4Known {} true).1 rfl rfl,
   (composite_suggestions_decompose c4Known {} true).2.1 (Or.inl rfl),
   (composite_suggestions_decompose c4Known {} true).2.2 (Or.inl rfl)⟩

/-! ## C10: "Action:" lines always pass through -/

theorem startsWithL_append : ∀ (p l : List Char), startsWithL p l = true → ∃ r, l = p ++ r
  | [], l, _ => ⟨l, rfl⟩
  | a :: ps, [], h => by simp [startsWithL] at h
  | a :: ps, c :: cs, h => by
      simp only [startsWithL, Bool.and_eq_true, decide_eq_true_eq] at h
      obtain ⟨r, hr⟩ := startsWithL_append ps cs h.2
      exact ⟨r, by rw [hr, h.1, List.cons_append]⟩

theorem char_toNat_ofNat {n : ℕ} (h : n < 55296) : (Char.ofNat n).toNat = n := by
  unfold Char.ofNat
  rw [dif_pos (Or.inl h)]
  rfl

theorem toNat_le_of_le {a b : Char} (h : a ≤ b) : a.toNat ≤ b.toNat := by
  rw [Char.le_def, UInt32.le_def, BitVec.le_def] at h
  exact h

theorem lowerChar_eq_colon {c : Char} (h : lowerChar c = ':') : c = ':' := by
  by_cases hc : 'A' ≤ c ∧ c ≤ 'Z'
  · exfalso
    unfold lowerChar at h
    rw [if_pos hc] at h
    have h1 : 65 ≤ c.toNat := toNat_le_of_le hc.1
    have h2 : c.toNat ≤ 90 := toNat_le_of_le hc.2
    have h3 := congrArg Char.toNat h
    rw [char_toNat_ofNat (by omega)] at h3
    have h4 : (':').toNat = 58 := rfl
    omega
  · unfold lowerChar at h
    rwa [if_neg hc] at h

/-- **C10**: a suggestion line whose stripped text begins with "action:"
(case-insensitively) is never suppressed and never replaced by an "already
entered" annotation: for every flag set, entered values and teaching mode,
the resolver returns exactly one item — the text after the first colon,
stripped, with its first letter upper-cased. -/
theorem action_lines_pass_through (line : String) (k : Known) (e : Entered) (teaching : Bool)
    (h : startsWithL ("action:".data) (lowerL (pyStrip line.data)) = true) :
    expand_and_filter_suggestion line k e teaching =
      [String.mk (titlecaseL (pyStrip (afterChar ':' (pyStrip line.data))))] := by
  have hne : ¬(line.data = []) := by
    intro h0
    rw [h0] at h
    simp [pyStrip, lowerL, startsWithL] at h
  have hcolon : ':' ∈ pyStrip line.data := by
    obtain ⟨r, hr⟩ := startsWithL_append _ _ h
    have hmem : ':' ∈ lowerL (pyStrip line.data) := by
      rw [hr]
      exact List.mem_append_left _ (by decide)
    obtain ⟨c, hcm, hcl⟩ := List.mem_map.mp hmem
    exact lowerChar_eq_colon hcl ▸ hcm
  simp only [expand_and_filter_suggestion]
  rw [if_neg hne, if_pos h, if_pos hcolon]

/-- The C10 witness flags: every concept already entered. -/
def c10Known : Known :=
  { tsh := true, egfr := true, ferritin := true, tsat := true, b12 := true, folate := true
    ldh := true, haptoglobin := true, indirect_bili := true, retic_pct := true
    retic_qual := true, rpi := true, iron_any := true, hemo_any := true, retic_any := true
    vits_any := true }

/-- Witness for C10: an action line that mentions iron studies and B12, with
every concept flagged as already entered and teaching mode on, still passes
through as one item. -/
theorem action_lines_pass_through_witness :
    expand_and_filter_suggestion "Action: recheck iron studies and B12" c10Known {} true =
      ["Recheck iron studies and B12"] := by
  have h := action_lines_pass_through "Action: recheck iron studies and B12" c10Known {} true
    (by decide)
  rw [h]
  decide

/-! ## C9: the numeric input normalizer -/

theorem digitsValAux_eq_zero : ∀ (l : List Char) (a : ℕ), digitsValAux a l = 0 → a = 0
  | [], _, h => h
  | c :: cs, a, h => by
      have := digitsValAux_eq_zero cs (10 * a + (c.toNat - 48)) h
      omega

theorem digit_char_eq_zero {c : Char} (hd : c.isDigit = true) (h0 : c.toNat - 48 = 0) :
    c = '0' := by
  simp only [Char.isDigit, Bool.and_eq_true, decide_eq_true_eq] at hd
  have l1 : 48 ≤ c.toNat := by
    have h1 := hd.1
    rw [ge_iff_le, UInt32.le_def, BitVec.le_def] at h1
    exact h1
  have l2 : c.toNat ≤ 57 := by
    have h2 := hd.2
    rw [UInt32.le_def, BitVec.le_def] at h2
    exact h2
  have h48 : c.toNat = 48 := by omega
  calc c = Char.ofNat c.toNat := (Char.ofNat_toNat c).symm
    _ = Char.ofNat 48 := by rw [h48]
    _ = '0' := by decide

theorem digits_zero_head (l : List Char) (hd : ∀ c ∈ l, c.isDigit = true)
    (h0 : digitsVal l = 0) (hne : l ≠ []) : '0' ∈ l := by
  cases l with
  | nil => exact absurd rfl hne
  | cons c cs =>
      have haux : digitsValAux (10 * 0 + (c.toNat - 48)) cs = 0 := h0
      have hz := digitsValAux_eq_zero cs _ haux
      have hc : c = '0' :=
        digit_char_eq_zero (hd c (List.mem_cons_self c cs)) (by omega)
      exact hc ▸ List.mem_cons_self c cs

theorem parseMantissa_zero {l : List Char} {m : ℚ} {rest : List Char}
    (h : parseMantissa l = some (m, rest)) (hm : m = 0) : '0' ∈ l := by
  subst hm
  unfold parseMantissa at h
  have hipd : ∀ c ∈ l.takeWhile Char.isDigit, c.isDigit = true :=
    fun c hc => List.mem_takeWhile_imp hc
  have hipsub : ∀ c ∈ l.takeWhile Char.isDigit, c ∈ l :=
    fun c hc => (List.takeWhile_sublist Char.isDigit).subset hc
  split at h
  next r2 heq =>
    split_ifs at h with hguard
    rw [Option.some.injEq, Prod.mk.injEq] at h
    have hm0 : (digitsVal (l.takeWhile Char.isDigit) : ℚ) +
        (digitsVal (r2.takeWhile Char.isDigit) : ℚ) /
          (10 : ℚ) ^ (r2.takeWhile Char.isDigit).length = 0 := h.1
    have hnn1 : (0 : ℚ) ≤ (digitsVal (l.takeWhile Char.isDigit) : ℚ) := Nat.cast_nonneg _
    have hnn2 : (0 : ℚ) ≤ (digitsVal (r2.takeWhile Char.isDigit) : ℚ) /
        (10 : ℚ) ^ (r2.takeWhile Char.isDigit).length :=
      div_nonneg (Nat.cast_nonneg _) (by positivity)
    have hboth := (add_eq_zero_iff_of_nonneg hnn1 hnn2).mp hm0
    have hip0 : digitsVal (l.takeWhile Char.isDigit) = 0 := by
      exact_mod_cast hboth.1
    have hfp0 : digitsVal (r2.takeWhile Char.isDigit) = 0 := by
      have hd0 := hboth.2
      rw [div_eq_zero_iff] at hd0
      rcases hd0 with hd0 | hd0
      · exact_mod_cast hd0
      · exact absurd hd0 (by positivity)
    by_cases hip : l.takeWhile Char.isDigit = []
    · have hfp : r2.takeWhile Char.isDigit ≠ [] := fun hfp => hguard ⟨hip, hfp⟩
      have h0fp : '0' ∈ r2.takeWhile Char.isDigit :=
        digits_zero_head _ (fun c hc => List.mem_takeWhile_imp hc) hfp0 hfp
      have h0r2 : '0' ∈ r2 := (List.takeWhile_sublist Char.isDigit).subset h0fp
      have h0r1 : '0' ∈ l.dropWhile Char.isDigit := by
        rw [heq]
        exact List.mem_cons_of_mem _ h0r2
      exact (List.dropWhile_sublist Char.isDigit).subset h0r1
    · exact hipsub _ (digits_zero_head _ hipd hip0 hip)
  next heq =>
    split_ifs at h with hip
    rw [Option.some.injEq, Prod.mk.injEq] at h
    have hm0 : (digitsVal (l.takeWhile Char.isDigit) : ℚ) = 0 := h.1
    have hip0 : digitsVal (l.takeWhile Char.isDigit) = 0 := by exact_mod_cast hm0
    exact hipsub _ (digits_zero_head _ hipd hip0 hip)

theorem parseAfterMantissa_zero {m : ℚ} {rest : List Char} {v : ℚ}
    (h : parseAfterMantissa m rest = some v) (hv : v = 0) : m = 0 := by
  subst hv
  cases rest with
  | nil =>
      simp only [parseAfterMantissa, Option.some.injEq] at h
      exact h
  | cons c r =>
      simp only [parseAfterMantissa] at h
      split_ifs at h with he hguard
      injection h with h
      have h10 : (10 : ℚ) ^
          ((expSign r).1 * (digitsVal ((expSign r).2.takeWhile Char.isDigit) : Int)) ≠ 0 :=
        zpow_ne_zero _ (by norm_num)
      rcases mul_eq_zero.mp h with h0 | h0
      · exact h0
      · exact absurd h0 h10

theorem splitSign_fst (l : List Char) : (splitSign l).1 = 1 ∨ (splitSign l).1 = -1 := by
  unfold splitSign
  split <;> simp

theorem splitSign_snd_subset (l : List Char) : ∀ c ∈ (splitSign l).2, c ∈ l := by
  unfold splitSign
  split
  · exact fun c hc => List.mem_cons_of_mem _ hc
  · exact fun c hc => List.mem_cons_of_mem _ hc
  · exact fun c hc => hc

theorem pyFloat_zero {l : List Char} (h : pyFloat l = some 0) : '0' ∈ l := by
  unfold pyFloat at h
  split at h
  · exact absurd h (by simp)
  next m rest heq1 =>
    split at h
    · exact absurd h (by simp)
    next v heq2 =>
      injection h with h
      have hv : v = 0 := by
        rcases splitSign_fst l with hs | hs <;> rw [hs] at h <;> linarith
      have hm : m = 0 := parseAfterMantissa_zero heq2 hv
      exact splitSign_snd_subset l _ (parseMantissa_zero heq1 hm)

/-- **C9**: the numeric normalizer is a total function on strings — built as
a Lean function it cannot raise — returning none on blank or whitespace-only
text, none on unparseable text (the parser rejects it), and some(q) only for
parsed numerals; it returns 0 only when the typed text itself denotes 0 (its
digits are all zero, so in particular the character '0' was typed). -/
theorem to_float_normalizer :
    (∀ s : String, (∀ c ∈ s.data, isSpaceChar c = true) → to_float s = none) ∧
    (∀ s : String, to_float s = some 0 → '0' ∈ s.data) ∧
    to_float "" = none ∧ to_float "abc" = none ∧ to_float "12abc" = none ∧
    to_float " 3.5 " = some (7 / 2) ∧ to_float "0" = some 0 := by
  refine ⟨?_, ?_, rfl, rfl, rfl, ?_, ?_⟩
  · intro s hs
    have h1 : s.data.dropWhile isSpaceChar = [] :=
      List.dropWhile_eq_nil_iff.mpr fun x hx => hs x hx
    unfold to_float pyStrip
    rw [h1]
    rfl
  · intro s h0
    unfold to_float at h0
    split_ifs at h0 with he
    have hmem : '0' ∈ pyStrip s.data := pyFloat_zero h0
    unfold pyStrip at hmem
    rw [List.mem_reverse] at hmem
    have hm2 := (List.dropWhile_sublist isSpaceChar).subset hmem
    rw [List.mem_reverse] at hm2
    exact (List.dropWhile_sublist isSpaceChar).subset hm2
  · with_unfolding_all rfl
  · with_unfolding_all rfl

/-- Witness for C9: whitespace-only input maps to none, and an input that
evaluates to zero contains the digit '0'. -/
theorem to_float_normalizer_witness :
    to_float (String.mk [' ', '\t']) = none ∧ '0' ∈ ("0.00" : String).data :=
  ⟨to_float_normalizer.1 _ (by decide),
   to_float_normalizer.2.1 "0.00" (by with_unfolding_all rfl)⟩

end Anemia
